import Mathlib

/-!
Verification of the multi-provider inference routing layer of the
`sdlc_agent_cursor` repository, embedded shallowly from
`backend/services/adapters.py`, `backend/services/sdlc_builder.py` and
`backend/services/agent.py`.

External effects (HTTP calls, the process environment, the filesystem
clock) are modelled as explicit inputs: an adapter invocation is an
oracle `String → Option (String × Nat)` (`none` models the adapter
raising after its own retries), the environment is a partial map
`String → Option String`, and the ollama liveness probe outcome is an
`Option Bool` (`none` models the probe raising).
-/

namespace SDLC

/-- The result dictionary returned by `InferenceRouter.generate_text`
(`adapters.py`): keys `output`, `provider`, `model`, `tokens`, `fallback`. -/
structure GenResult where
  output : String
  provider : String
  model : String
  tokens : Nat
  fallback : Bool
deriving DecidableEq, Repr

/-- Default provider priority order hard-coded in the loop of
`InferenceRouter.generate_text`:
`for name in ["gemini", "perplexity", "hf", "mistral", "groq", "openai", "ollama"]`. -/
def defaultOrder : List String :=
  ["gemini", "perplexity", "hf", "mistral", "groq", "openai", "ollama"]

/-- First half of the `strategies` construction in `generate_text`:
`if preference: for name in preference: if self.providers.get(name): strategies.append(name)`.
(A `some []` preference is falsy in Python and skipped; filtering the empty
list yields the same empty contribution.) -/
def prefPart (avail : String → Bool) : Option (List String) → List String
  | none => []
  | some pref => pref.filter (fun n => avail n)

/-- Second half of the `strategies` construction:
`for name in default_order: if self.providers.get(name) and name not in strategies: strategies.append(name)`. -/
def addDefaults (avail : String → Bool) (acc : List String) : List String → List String
  | [] => acc
  | n :: rest =>
      if avail n && !(acc.contains n) then addDefaults avail (acc ++ [n]) rest
      else addDefaults avail acc rest

/-- The full ordered candidate list (`strategies`) that `generate_text` iterates. -/
def strategies (avail : String → Bool) (preference : Option (List String)) : List String :=
  addDefaults avail (prefPart avail preference) defaultOrder

/-- The fixed model string each provider branch of `generate_text` reports on
success (`"gemini-1.5-flash"`, `"sonar-small-chat"`, ...). -/
def modelOf : String → String
  | "gemini" => "gemini-1.5-flash"
  | "perplexity" => "sonar-small-chat"
  | "hf" => "Qwen2.5-7B-Instruct (inference)"
  | "mistral" => "mistral-small-latest"
  | "groq" => "llama-3.1-8b-instant"
  | "openai" => "gpt-4o-mini"
  | "ollama" => "codellama"
  | _ => ""

/-- The `for name in strategies: try ... except Exception: continue` loop of
`generate_text`.  Each of the seven `if name == ...` branches calls the
corresponding adapter and returns its result dictionary on success; an adapter
exception (`calls n = none`) falls through to the next candidate, as does a
name matching none of the seven branches. -/
def tryLoop (calls : String → Option (String × Nat)) : List String → Option GenResult
  | [] => none
  | n :: rest =>
      if defaultOrder.contains n then
        match calls n with
        | some (t, tok) => some ⟨t, n, modelOf n, tok, false⟩
        | none => tryLoop calls rest
      else tryLoop calls rest

/-- Priority order inside `InferenceRouter._pick_provider_for_codegen`. -/
def codegenOrder : List String := ["openai", "mistral", "groq", "hf", "ollama"]

/-- Model of `InferenceRouter._pick_provider_for_codegen`: first available provider of
`codegenOrder` paired with `"auto"`, else `("local", "baseline")`. -/
def pickProviderForCodegen (avail : String → Bool) : String × String :=
  match codegenOrder.find? (fun n => avail n) with
  | some n => (n, "auto")
  | none => ("local", "baseline")

/-- Model of `InferenceRouter.generate_text`: run the candidate loop; if no candidate
returns, build the offline baseline result
`{"output": f"[baseline] You asked: {prompt}", ..., "fallback": True}`. -/
def generate_text (avail : String → Bool) (calls : String → Option (String × Nat))
    (prompt : String) (preference : Option (List String)) : GenResult :=
  match tryLoop calls (strategies avail preference) with
  | some r => r
  | none =>
      let pm := pickProviderForCodegen avail
      let output := "[baseline] You asked: " ++ prompt
      ⟨output, pm.1, pm.2, output.length / 4, true⟩

/-- Concrete availability map for witnesses: only `gemini` and `openai` set. -/
def availGO : String → Bool := fun n => n == "gemini" || n == "openai"

/-- Availability map of the C3 scenario: gemini absent, mistral and openai present. -/
def availC3 : String → Bool := fun n => n == "mistral" || n == "openai"

/-- Adapter-call oracle of the C3 scenario: mistral raises, openai succeeds. -/
def callsC3 : String → Option (String × Nat) :=
  fun n => if n == "openai" then some ("ok", 7) else none

/-- The retry configuration of the tenacity deco
`retry(wait=wait_exponential(multiplier=0.5, min=0.5, max=4), stop=stop_after_attempt(3))`
placed on each adapter method of `adapters.py`.  Delays in seconds, kept as
exact rationals. -/
structure RetryPolicy where
  multiplier : ℚ
  minWait : ℚ
  maxWait : ℚ
  maxAttempts : ℕ
deriving DecidableEq, Repr

/-- The single policy the spec calls "the uniform RetryPolicy". -/
def uniformPolicy : RetryPolicy := ⟨1/2, 1/2, 4, 3⟩

/-- Every external-call adapter method of `InferenceRouter`, paired with the
retry policy its decorator carries, transcribed literally from `adapters.py`. -/
def adapterPolicies : List (String × RetryPolicy) :=
  [("_v0_generate_frontend", ⟨1/2, 1/2, 4, 3⟩),
   ("_hf_classify", ⟨1/2, 1/2, 4, 3⟩),
   ("_hf_generate_text", ⟨1/2, 1/2, 4, 3⟩),
   ("_openai_chat", ⟨1/2, 1/2, 4, 3⟩),
   ("_mistral_chat", ⟨1/2, 1/2, 4, 3⟩),
   ("_groq_chat", ⟨1/2, 1/2, 4, 3⟩),
   ("_gemini_chat", ⟨1/2, 1/2, 4, 3⟩),
   ("_perplexity_chat", ⟨1/2, 1/2, 4, 3⟩),
   ("_ollama_chat", ⟨1/2, 1/2, 4, 3⟩)]

/-- tenacity `wait_exponential`: the sleep taken after a failed attempt number
`i` (1-based) is `max(min, min(max, multiplier * 2^(i-1)))`. -/
def waitAfter (p : RetryPolicy) (i : ℕ) : ℚ :=
  max p.minWait (min p.maxWait (p.multiplier * 2 ^ (i - 1)))

/-- tenacity retry loop with `stop_after_attempt`: run attempt `i` (1-based);
on a transient failure with `rem` further attempts still allowed, sleep and
retry, otherwise let the failure propagate.  The oracle `outcome` gives each
attempt's result (`none` = transient failure: timeout, non-2xx, malformed
body).  Returns the final outcome together with the number of the last attempt
made. -/
def runRetryGo (outcome : ℕ → Option α) : ℕ → ℕ → Option α × ℕ
  | rem, i =>
    match outcome i with
    | some a => (some a, i)
    | none =>
        match rem with
        | 0 => (none, i)
        | r + 1 => runRetryGo outcome r (i + 1)

/-- A decorated adapter call under policy `p`: first attempt is number 1, and
`stop_after_attempt(p.maxAttempts)` allows `p.maxAttempts - 1` retries. -/
def runRetry (p : RetryPolicy) (outcome : ℕ → Option α) : Option α × ℕ :=
  runRetryGo outcome (p.maxAttempts - 1) 1

/-- Python `bool(os.getenv(VAR))`: truthy iff the variable is present with a
non-empty value. -/
def envTruthy (env : String → Option String) (var : String) : Bool :=
  match env var with
  | some s => !(s == "")
  | none => false

/-- Model of `InferenceRouter._detect_providers`: the availability dictionary, as a
function of the process environment and the outcome of the ollama liveness
probe (`GET {base}/api/tags, timeout=1.5`; `none` models the request raising,
`some b` models a response with `resp.ok = b`).  Keys absent from the
dictionary read back as falsy via `providers.get(name)`. -/
def detect (env : String → Option String) (probe : Option Bool) : String → Bool :=
  fun name =>
    let ollamaAvailable := probe == some true
    match name with
    | "openai" => envTruthy env "OPENAI_API_KEY"
    | "gemini" => envTruthy env "GEMINI_API_KEY"
    | "mistral" => envTruthy env "MISTRAL_API_KEY"
    | "groq" => envTruthy env "GROQ_API_KEY"
    | "hf" => envTruthy env "HF_API_KEY" || envTruthy env "HUGGINGFACE_API_KEY"
    | "perplexity" => envTruthy env "PERPLEXITY_API_KEY"
    | "ollama" => envTruthy env "OLLAMA_BASE_URL" || ollamaAvailable
    | "lovable" => true
    | "stitch" => true
    | "v0" => envTruthy env "V0_API_KEY" || envTruthy env "V0_DEV_API_KEY"
    | _ => false

/-- A named secret is present (with a non-empty value, which is what
`bool(os.getenv(...))` tests) in the environment. -/
def secretPresent (env : String → Option String) (var : String) : Prop :=
  ∃ s, env var = some s ∧ s ≠ ""

/-- One entry of the `logs` list built by the local `record` helper inside
`SDLCBuilder.build` (`sdlc_builder.py`).  The wall-clock `timestamp` and the
`models_used` / `metadata` dictionaries are omitted: they carry no content the
claims are about. -/
structure LogEntry where
  stage : String
  success : Bool
  filesGenerated : ℕ
  errors : Option String
deriving DecidableEq, Repr

/-- The five phases of `SDLCBuilder.build`, in source order. -/
inductive Phase
  | requirements
  | backend
  | frontend
  | deployment
  | documentation
deriving DecidableEq, Repr

/-- The `stage` string each phase passes to `record`. -/
def phaseStageName : Phase → String
  | .requirements => "requirements"
  | .backend => "backend"
  | .frontend => "frontend"
  | .deployment => "deployment"
  | .documentation => "documentation"

def phaseOrder : List Phase :=
  [.requirements, .backend, .frontend, .deployment, .documentation]

/-- The `try: <phase body>; record(stage, True, _, n, None)
except Exception as e: record(stage, False, _, 0, str(e))` wrapper around each
phase body of `SDLCBuilder.build`.  The phase body is an oracle: `.ok n` models
it completing with `n` files recorded, `.error msg` models it raising with
`str(e) = msg`. -/
def runPhase (outcomes : Phase → Except String ℕ) (p : Phase) : LogEntry :=
  match outcomes p with
  | .ok n => ⟨phaseStageName p, true, n, none⟩
  | .error e => ⟨phaseStageName p, false, 0, some e⟩

/-- The sequential control skeleton of `SDLCBuilder.build`: the `logs` list the
final report carries, each phase appending exactly one entry, the pipeline
running every phase whether or not an earlier one raised. -/
def buildLogs (outcomes : Phase → Except String ℕ) : List LogEntry :=
  let logs0 : List LogEntry := []
  let logs1 := logs0 ++ [runPhase outcomes .requirements]
  let logs2 := logs1 ++ [runPhase outcomes .backend]
  let logs3 := logs2 ++ [runPhase outcomes .frontend]
  let logs4 := logs3 ++ [runPhase outcomes .deployment]
  logs4 ++ [runPhase outcomes .documentation]

/-- Phase outcomes of the C8 scenario: the backend phase raises `"boom"`,
every other phase succeeds with one file. -/
def outcomesC8 : Phase → Except String ℕ :=
  fun p => match p with
  | .backend => .error "boom"
  | _ => .ok 1

/-- The result dictionary of `InferenceRouter.classify_image`. -/
structure ClassifyResult where
  label : String
  confidence : ℚ
  provider : String
  model : String
  fallback : Bool
deriving DecidableEq, Repr

/-- Priority order inside `InferenceRouter._pick_provider_for_vision`. -/
def visionOrder : List String := ["openai", "gemini", "groq", "hf", "ollama"]

/-- Model of `InferenceRouter._pick_provider_for_vision`. -/
def pickProviderForVision (avail : String → Bool) : String × String :=
  match visionOrder.find? (fun n => avail n) with
  | some n => (n, "auto")
  | none => ("local", "baseline")

/-- Channel sum `sum(p[0] + p[1] + p[2] for p in pixels.getdata())` over the 32×32-resized
RGB image.  The resized pixel data is taken as input: PIL's resampling is
outside the model, and `main.py` converts every uploaded image to RGB before
calling `classify_image`, so each pixel is an (r, g, b) triple. -/
def channelSum (pixels : List (ℕ × ℕ × ℕ)) : ℕ :=
  pixels.foldl (fun acc p => acc + (p.1 + p.2.1 + p.2.2)) 0

/-- Model of `InferenceRouter.classify_image`: when the `hf` provider is available its
classifier is tried first (`hfCall = none` models `_hf_classify` raising after
its retries); otherwise, or on failure, the local average-brightness heuristic
runs: `avg = channelSum / (32*32*3)`, label `"cow"` if `avg < 128` else
`"cat"`, confidence `0.65`, provider/model from `_pick_provider_for_vision`,
`fallback=True`. -/
def classify_image (avail : String → Bool) (hfCall : Option (String × ℚ))
    (pixels : List (ℕ × ℕ × ℕ)) : ClassifyResult :=
  match (if avail "hf" then hfCall else none) with
  | some lp => ⟨lp.1, lp.2, "hf", "vit-base-patch16-224", false⟩
  | none =>
      let avg : ℚ := (channelSum pixels : ℚ) / (32 * 32 * 3)
      let label := if avg < 128 then "cow" else "cat"
      ⟨label, 65 / 100, (pickProviderForVision avail).1, (pickProviderForVision avail).2, true⟩

/-- Character `'0' + d` for the decimal digit `d = n % 10`. -/
def digitChar (n : ℕ) : Char := Char.ofNat (48 + n % 10)

/-- Fixed-width zero-padded decimal rendering, most significant digit first:
the numeric fields of `strftime`. -/
def padDigits : ℕ → ℕ → List Char
  | 0, _ => []
  | w + 1, n => padDigits w (n / 10) ++ [digitChar n]

/-- Rendering of `datetime.utcnow().strftime("%Y%m%d-%H%M%S")`: the timestamp prefix of the
run directory name, from a clock reading `(y, mo, d, hh, mi, s)`. -/
def tsChars (y mo d hh mi s : ℕ) : List Char :=
  padDigits 4 y ++ padDigits 2 mo ++ padDigits 2 d ++ ['-']
    ++ padDigits 2 hh ++ padDigits 2 mi ++ padDigits 2 s

/-- The filter comprehension shared by `SDLCBuilder._mk_run_dir` and
`AgentOrchestrator._mk_run_dir`:
`c for c in title.lower() if c.isalnum() or c in ("-", "_", " ")`.
Python's `str.isalnum` over full Unicode is a parameter `isalnum`, and
`str.lower` a parameter `lower : Char → List Char` (a character may lowercase
to more than one character). -/
def slugFilter (isalnum : Char → Bool) (lowered : List Char) : List Char :=
  lowered.filter (fun c => isalnum c || c == '-' || c == '_' || c == ' ')

/-- Python `.strip()` after the filter.  Only the space character remains strippable
at this point: every other whitespace character fails both `isalnum` and the
explicit keep-set, so the filter has already dropped it. -/
def stripSpaces (l : List Char) : List Char :=
  ((l.dropWhile (fun c => c == ' ')).reverse.dropWhile (fun c => c == ' ')).reverse

/-- The slug of `_mk_run_dir`: lower, filter, strip, `replace(" ", "-")`. -/
def slugOf (isalnum : Char → Bool) (lower : Char → List Char) (title : List Char) : List Char :=
  (stripSpaces (slugFilter isalnum (title.flatMap lower))).map
    (fun c => if c == ' ' then '-' else c)

/-- The name `f"{ts}-{slug[:40]}"` that `_mk_run_dir` passes to
`os.path.join(runs_dir, ...)`. -/
def mkRunDirName (isalnum : Char → Bool) (lower : Char → List Char)
    (y mo d hh mi s : ℕ) (title : List Char) : List Char :=
  tsChars y mo d hh mi s ++ ['-'] ++ (slugOf isalnum lower title).take 40

/-- ASCII alphanumeric test: a concrete sound instance of Python's
`str.isalnum` (restricted to ASCII), used by the C10 witness. -/
def asciiAlnum (c : Char) : Bool :=
  (48 ≤ c.toNat && c.toNat ≤ 57) || (65 ≤ c.toNat && c.toNat ≤ 90)
    || (97 ≤ c.toNat && c.toNat ≤ 122)

/-- Character constants used by the JSON model (kept out of literals: braces
inside string literals and backticks are written via code points). -/
def btick : Char := Char.ofNat 96

def lbrace : Char := Char.ofNat 123

def rbrace : Char := Char.ofNat 125

def squote : Char := Char.ofNat 39

/-- Values as `json.loads` produces them.  Integral number lexemes become
Python ints (`.int`); lexemes with a fraction or exponent become floats, kept
as their lexeme (`.numF`): float formatting semantics is outside the model and
exercised by no claim. -/
inductive Json where
  | null
  | bool (b : Bool)
  | int (n : Int)
  | numF (lexeme : String)
  | str (s : String)
  | arr (xs : List Json)
  | obj (fields : List (String × Json))

/-- Decimal digit test on a character. -/
def isDigitChar (c : Char) : Bool := 48 ≤ c.toNat && c.toNat ≤ 57

/-- Whitespace accepted between JSON tokens by Python's decoder:
space, tab, newline, carriage return. -/
def isWsChar (c : Char) : Bool := c == ' ' || c == '\t' || c == '\n' || c == '\r'

def skipWs : List Char → List Char
  | [] => []
  | c :: cs => if isWsChar c then skipWs cs else c :: cs

/-- Value of one hexadecimal digit. -/
def hexVal (c : Char) : Option ℕ :=
  if 48 ≤ c.toNat ∧ c.toNat ≤ 57 then some (c.toNat - 48)
  else if 97 ≤ c.toNat ∧ c.toNat ≤ 102 then some (c.toNat - 87)
  else if 65 ≤ c.toNat ∧ c.toNat ≤ 70 then some (c.toNat - 55)
  else none

/-- Lower-case hexadecimal digit for a value below 16. -/
def hexDigit (n : ℕ) : Char := if n < 10 then Char.ofNat (48 + n) else Char.ofNat (87 + n)

/-- Body of a JSON string literal (after the opening quote), with the escape
set of Python's decoder in strict mode: short escapes, `\uXXXX`, raw control
characters rejected.  Lone-surrogate `\u` escapes are rejected here (Python
keeps them as surrogate code units, which `Char` cannot carry; no claim
involves them). -/
def parseStringBody : List Char → Option (List Char × List Char)
  | [] => none
  | c :: cs =>
      if c == '"' then some ([], cs)
      else if c == '\\' then
        match cs with
        | [] => none
        | e :: cs2 =>
            if e == '"' then (fun p => ('"' :: p.1, p.2)) <$> parseStringBody cs2
            else if e == '\\' then (fun p => ('\\' :: p.1, p.2)) <$> parseStringBody cs2
            else if e == '/' then (fun p => ('/' :: p.1, p.2)) <$> parseStringBody cs2
            else if e == 'b' then (fun p => (Char.ofNat 8 :: p.1, p.2)) <$> parseStringBody cs2
            else if e == 'f' then (fun p => (Char.ofNat 12 :: p.1, p.2)) <$> parseStringBody cs2
            else if e == 'n' then (fun p => ('\n' :: p.1, p.2)) <$> parseStringBody cs2
            else if e == 'r' then (fun p => ('\r' :: p.1, p.2)) <$> parseStringBody cs2
            else if e == 't' then (fun p => ('\t' :: p.1, p.2)) <$> parseStringBody cs2
            else if e == 'u' then
              match cs2 with
              | h1 :: h2 :: h3 :: h4 :: cs3 =>
                  match hexVal h1, hexVal h2, hexVal h3, hexVal h4 with
                  | some v1, some v2, some v3, some v4 =>
                      if v1 * 4096 + v2 * 256 + v3 * 16 + v4 < 55296 then
                        (fun p => (Char.ofNat (v1 * 4096 + v2 * 256 + v3 * 16 + v4) :: p.1,
                          p.2)) <$> parseStringBody cs3
                      else none
                  | _, _, _, _ => none
              | _ => none
            else none
      else if c.toNat < 32 then none
      else (fun p => (c :: p.1, p.2)) <$> parseStringBody cs

def natFromDigits (ds : List Char) : ℕ :=
  ds.foldl (fun a c => a * 10 + (c.toNat - 48)) 0

/-- Fraction part `\.[0-9]+` of the JSON number grammar, all-or-nothing. -/
def parseFracPart (cs : List Char) : Option (List Char × List Char) :=
  match cs with
  | '.' :: r =>
      match r.span isDigitChar with
      | (fd, r2) => if fd.isEmpty then none else some ('.' :: fd, r2)
  | _ => none

/-- Exponent part `[eE][+-]?[0-9]+` of the JSON number grammar. -/
def parseExpPart (cs : List Char) : Option (List Char × List Char) :=
  match cs with
  | e :: r =>
      if e == 'e' || e == 'E' then
        let sp : List Char × List Char := match r with
          | '+' :: r2 => (['+'], r2)
          | '-' :: r2 => (['-'], r2)
          | _ => ([], r)
        match sp.2.span isDigitChar with
        | (ed, r2) => if ed.isEmpty then none else some (e :: sp.1 ++ ed, r2)
      else none
  | [] => none

/-- JSON number grammar `-?(0|[1-9][0-9]*)(\.[0-9]+)?([eE][+-]?[0-9]+)?`
(Python's NUMBER_RE; the non-standard NaN/Infinity literals Python also
accepts are outside the model and unused by every claim). -/
def parseNumber (cs : List Char) : Option (Json × List Char) :=
  let np : List Char × List Char := match cs with
    | '-' :: r => (['-'], r)
    | _ => ([], cs)
  match np.2.span isDigitChar with
  | (ds, cs2) =>
      if ds.isEmpty then none
      else if ds.head? = some '0' ∧ ds.length ≠ 1 then none
      else
        let fp : List Char × List Char := match parseFracPart cs2 with
          | some (fl, r) => (fl, r)
          | none => ([], cs2)
        let ep : List Char × List Char := match parseExpPart fp.2 with
          | some (el, r) => (el, r)
          | none => ([], fp.2)
        if fp.1.isEmpty ∧ ep.1.isEmpty then
          some (Json.int (if np.1.isEmpty then (natFromDigits ds : Int)
            else -(natFromDigits ds : Int)), cs2)
        else
          some (Json.numF (String.mk (np.1 ++ ds ++ fp.1 ++ ep.1)), ep.2)

/-- Python dict construction while decoding an object: a repeated key keeps its
first position and takes the last value. -/
def dictInsert (fields : List (String × Json)) (k : String) (v : Json) :
    List (String × Json) :=
  if fields.any (fun kv => kv.1 == k) then
    fields.map (fun kv => if kv.1 == k then (k, v) else kv)
  else fields ++ [(k, v)]

mutual

/-- One JSON value, scrutinee already whitespace-stripped.  The fuel bounds
recursion depth only; each nested value consumes input, so any fuel of at
least twice the input length suffices. -/
def parseValue : ℕ → List Char → Option (Json × List Char)
  | 0, _ => none
  | _ + 1, 'n' :: 'u' :: 'l' :: 'l' :: r => some (Json.null, r)
  | _ + 1, 't' :: 'r' :: 'u' :: 'e' :: r => some (Json.bool true, r)
  | _ + 1, 'f' :: 'a' :: 'l' :: 's' :: 'e' :: r => some (Json.bool false, r)
  | _ + 1, '"' :: r =>
      (fun p => (Json.str (String.mk p.1), p.2)) <$> parseStringBody r
  | fuel + 1, c :: r =>
      if c == lbrace then
        match skipWs r with
        | c2 :: r2 =>
            if c2 == rbrace then some (Json.obj [], r2)
            else parseMembers fuel [] (c2 :: r2)
        | [] => none
      else if c == '[' then
        match skipWs r with
        | c2 :: r2 =>
            if c2 == ']' then some (Json.arr [], r2)
            else (fun p => (Json.arr p.1, p.2)) <$> parseElems fuel (c2 :: r2)
        | [] => none
      else if c == '-' || isDigitChar c then parseNumber (c :: r)
      else none
  | _ + 1, [] => none

/-- Members of a JSON object, from the first character of a key string;
`acc` is the dict built so far. -/
def parseMembers : ℕ → List (String × Json) → List Char → Option (Json × List Char)
  | 0, _, _ => none
  | fuel + 1, acc, cs =>
      match cs with
      | '"' :: r =>
          match parseStringBody r with
          | none => none
          | some (k, r1) =>
              match skipWs r1 with
              | ':' :: r2 =>
                  match parseValue fuel (skipWs r2) with
                  | none => none
                  | some (v, r3) =>
                      match skipWs r3 with
                      | ',' :: r4 =>
                          parseMembers fuel (dictInsert acc (String.mk k) v) (skipWs r4)
                      | c4 :: r4 =>
                          if c4 == rbrace then
                            some (Json.obj (dictInsert acc (String.mk k) v), r4)
                          else none
                      | [] => none
              | _ => none
      | _ => none

/-- Elements of a JSON array, from the first character of an element. -/
def parseElems : ℕ → List Char → Option (List Json × List Char)
  | 0, _ => none
  | fuel + 1, cs =>
      match parseValue fuel cs with
      | none => none
      | some (v, r) =>
          match skipWs r with
          | ',' :: r2 =>
              match parseElems fuel (skipWs r2) with
              | none => none
              | some (vs, r3) => some (v :: vs, r3)
          | c2 :: r2 => if c2 == ']' then some ([v], r2) else none
          | [] => none

end

/-- Model of `json.loads`: one JSON document with nothing but whitespace
around it; `none` models `json.JSONDecodeError` (including "Extra data"). -/
def jsonLoads (text : String) : Option Json :=
  match parseValue (2 * text.toList.length + 2) (skipWs text.toList) with
  | some (v, rest) => if skipWs rest = [] then some v else none
  | none => none

/-- Escape of one character inside a JSON string literal, as
`json.dumps(..., ensure_ascii=False)` renders it. -/
def escapeChar (c : Char) : List Char :=
  if c == '"' then ['\\', '"']
  else if c == '\\' then ['\\', '\\']
  else if c == '\n' then ['\\', 'n']
  else if c == '\r' then ['\\', 'r']
  else if c == '\t' then ['\\', 't']
  else if c.toNat == 8 then ['\\', 'b']
  else if c.toNat == 12 then ['\\', 'f']
  else if c.toNat < 32 then
    ['\\', 'u', '0', '0', hexDigit (c.toNat / 16), hexDigit (c.toNat % 16)]
  else [c]

/-- Serialization of one string as a JSON string literal. -/
def dumpsString (s : String) : List Char :=
  '"' :: s.toList.flatMap escapeChar ++ ['"']

/-- Serialization of the members of a string-to-string dict with
`json.dumps`'s default `", "` / `": "` separators. -/
def dumpsPairs : List (String × String) → List Char
  | [] => []
  | [(k, v)] => dumpsString k ++ ':' :: ' ' :: dumpsString v
  | (k, v) :: rest =>
      dumpsString k ++ ':' :: ' ' :: dumpsString v ++ ',' :: ' ' :: dumpsPairs rest

/-- Model of `json.dumps` on a string-to-string mapping (insertion order of
the Python dict preserved). -/
def dumps (M : List (String × String)) : String :=
  String.mk (lbrace :: (dumpsPairs M ++ [rbrace]))

/-- Escape of one character inside a Python single-quoted `repr` string
(approximate: backslash, quote and the common control characters). -/
def reprEscapeChar (c : Char) : List Char :=
  if c == '\\' then ['\\', '\\']
  else if c == squote then ['\\', squote]
  else if c == '\n' then ['\\', 'n']
  else if c == '\r' then ['\\', 'r']
  else if c == '\t' then ['\\', 't']
  else [c]

/-- Python `repr` of a string, single-quoted. -/
def strRepr (s : String) : List Char :=
  squote :: s.toList.flatMap reprEscapeChar ++ [squote]

mutual

/-- Python `repr` of a `json.loads` value: exact for `None`/`True`/`False`,
ints and the overall list/dict shape; string quoting and float rendering
approximate (no claim exercises them through `str()`). -/
def pyRepr : Json → List Char
  | .null => 'N' :: 'o' :: 'n' :: 'e' :: []
  | .bool true => 'T' :: 'r' :: 'u' :: 'e' :: []
  | .bool false => 'F' :: 'a' :: 'l' :: 's' :: 'e' :: []
  | .int n => (toString n).toList
  | .numF lex => lex.toList
  | .str s => strRepr s
  | .arr xs => '[' :: pyReprList xs ++ [']']
  | .obj fs => lbrace :: pyReprFields fs ++ [rbrace]

def pyReprList : List Json → List Char
  | [] => []
  | [x] => pyRepr x
  | x :: y :: rest => pyRepr x ++ ',' :: ' ' :: pyReprList (y :: rest)

def pyReprFields : List (String × Json) → List Char
  | [] => []
  | [(k, v)] => strRepr k ++ ':' :: ' ' :: pyRepr v
  | (k, v) :: f :: rest => strRepr k ++ ':' :: ' ' :: pyRepr v ++ ',' :: ' ' :: pyReprFields (f :: rest)

end

/-- Python `str()` applied to a decoded JSON value: the identity on strings,
`repr` on everything else. -/
def pyStr : Json → String
  | .str s => s
  | v => String.mk (pyRepr v)

/-- Model of `InferenceRouter._parse_files_json`: `json.loads(text)`, require a
dict (else `ValueError("files payload is not a dict")`), coerce keys and
values with `str(...)` (object keys are already strings). `none` models any
raised exception. -/
def parseFilesJson (text : String) : Option (List (String × String)) :=
  match jsonLoads text with
  | some (Json.obj fields) => some (fields.map (fun kv => (kv.1, pyStr kv.2)))
  | some _ => none
  | none => none

/-- Opening of the fence regex at the current position:
three backticks, an optional `json` tag, then a required newline; returns the
remainder after the newline. -/
def fenceOpen (cs : List Char) : Option (List Char) :=
  if cs.take 3 = [btick, btick, btick] then
    let r := cs.drop 3
    if r.take 5 = ['j', 's', 'o', 'n', '\n'] then some (r.drop 5)
    else if r.take 1 = ['\n'] then some (r.drop 1)
    else none
  else none

/-- Lazy interior match: the characters before the first closing triple
backtick, together with what follows it; `none` when no closing fence exists
(the regex then fails at this opening position). -/
def findClose : List Char → Option (List Char × List Char)
  | [] => none
  | c :: cs =>
      if (c :: cs).take 3 = [btick, btick, btick] then some ([], (c :: cs).drop 3)
      else
        match findClose cs with
        | some (i, a) => some (c :: i, a)
        | none => none

/-- Model of `re.search` with pattern
triple-backtick, optional `json`, newline, lazy interior, triple-backtick:
the interior of the leftmost (earliest-starting) match. -/
def findFence : List Char → Option (List Char)
  | [] => none
  | c :: cs =>
      match fenceOpen (c :: cs) with
      | some r =>
          match findClose r with
          | some (interior, _) => some interior
          | none => findFence cs
      | none => findFence cs

/-- Extractor path of `InferenceRouter.generate_code` on the model's raw text:
`files = {}`; try `_parse_files_json(text)`; on exception search for a fenced
block; if none is found `files` stays empty; if one is found,
`files = json.loads(interior)` — and an invalid interior makes this second
`json.loads` raise out of `generate_code`, modelled as `.error ()`. -/
def extractFiles (text : String) : Except Unit Json :=
  match parseFilesJson text with
  | some d => .ok (Json.obj (d.map (fun kv => (kv.1, Json.str kv.2))))
  | none =>
      match findFence text.toList with
      | none => .ok (Json.obj [])
      | some interior =>
          match jsonLoads (String.mk interior) with
          | some v => .ok v
          | none => .error ()

/-- View of a string-to-string mapping as the decoded JSON object value. -/
def strDictJson (d : List (String × String)) : Json :=
  Json.obj (d.map (fun kv => (kv.1, Json.str kv.2)))

theorem addDefaults_eq (avail : String → Bool) :
    ∀ (l : List String), l.Nodup → ∀ acc : List String,
      addDefaults avail acc l = acc ++ l.filter (fun n => avail n && !(acc.contains n)) := by
  intro l
  induction l with
  | nil => intro _ acc; simp [addDefaults]
  | cons n rest ih =>
      intro hnd acc
      rcases List.nodup_cons.mp hnd with ⟨hn, hrest⟩
      by_cases h : (avail n && !(acc.contains n)) = true
      · rw [addDefaults, if_pos h, ih hrest (acc ++ [n])]
        have hcongr : rest.filter (fun m => avail m && !((acc ++ [n]).contains m))
            = rest.filter (fun m => avail m && !(acc.contains m)) := by
          apply List.filter_congr
          intro m hm
          have hmn : m ≠ n := fun e => hn (e ▸ hm)
          simp [List.contains, List.elem_eq_mem, List.mem_append, hmn]
        rw [hcongr, List.filter_cons, if_pos h, List.append_assoc]
        rfl
      · rw [addDefaults, if_neg h, ih hrest acc, List.filter_cons, if_neg h]

theorem strategies_eq (avail : String → Bool) (P : List String) :
    strategies avail (some P) =
      P.filter (fun n => avail n)
        ++ defaultOrder.filter
            (fun n => avail n && !((P.filter (fun m => avail m)).contains n)) := by
  unfold strategies prefPart
  exact addDefaults_eq avail defaultOrder (by decide) _

theorem strategies_nodup (avail : String → Bool) (P : List String) (hP : P.Nodup) :
    (strategies avail (some P)).Nodup := by
  rw [strategies_eq]
  apply List.Nodup.append
  · exact hP.filter _
  · exact (by decide : defaultOrder.Nodup).filter _
  · intro a ha hb
    rcases List.mem_filter.mp hb with ⟨_, hcond⟩
    have hmem : ((P.filter (fun m => avail m)).contains a) = true := by
      simp [List.contains, List.elem_eq_mem, ha]
    rw [Bool.and_eq_true, hmem] at hcond
    simp at hcond

/-- C1 (amended to duplicate-free preference lists): for every availability map
`A` and duplicate-free preference list `P`, the candidate list that
`generate_text` tries equals the elements of `P` available under `A` in `P`'s
order, followed by the available elements of the default priority order
`[gemini, perplexity, hf, mistral, groq, openai, ollama]` not already included,
and no provider appears twice in it. -/
theorem c1_candidate_order (avail : String → Bool) (P : List String) (hP : P.Nodup) :
    strategies avail (some P) =
      P.filter (fun n => avail n)
        ++ defaultOrder.filter
            (fun n => avail n && !((P.filter (fun m => avail m)).contains n))
    ∧ (strategies avail (some P)).Nodup :=
  ⟨strategies_eq avail P, strategies_nodup avail P hP⟩

/-- Witness for `c1_candidate_order` at a concrete availability map and
preference list. -/
theorem c1_candidate_order_witness :
    strategies availGO (some ["openai", "hf"]) =
      ["openai", "hf"].filter (fun n => availGO n)
        ++ defaultOrder.filter
            (fun n => availGO n && !((["openai", "hf"].filter (fun m => availGO m)).contains n))
    ∧ (strategies availGO (some ["openai", "hf"])).Nodup :=
  c1_candidate_order availGO ["openai", "hf"] (by decide)

/-- C1, counterexample to the claim as stated: with the duplicated preference
list `["gemini", "gemini"]` and every provider available, the candidate list
contains `gemini` twice, so "no provider appearing twice" fails. -/
theorem c1_counterexample :
    ¬ (strategies (fun _ => true) (some ["gemini", "gemini"])).Nodup := by
  decide

theorem tryLoop_none (calls : String → Option (String × Nat)) :
    ∀ l : List String, (∀ n ∈ l, calls n = none) → tryLoop calls l = none := by
  intro l
  induction l with
  | nil => intro _; rfl
  | cons n rest ih =>
      intro h
      rw [tryLoop]
      by_cases hc : defaultOrder.contains n = true
      · rw [if_pos hc, h n (List.mem_cons_self n rest)]
        exact ih fun m hm => h m (List.mem_cons_of_mem n hm)
      · rw [if_neg hc]
        exact ih fun m hm => h m (List.mem_cons_of_mem n hm)

theorem tryLoop_skip (calls : String → Option (String × Nat)) :
    ∀ s₁ : List String, (∀ m ∈ s₁, calls m = none) →
      ∀ l : List String, tryLoop calls (s₁ ++ l) = tryLoop calls l := by
  intro s₁
  induction s₁ with
  | nil => intro _ l; rfl
  | cons m rest ih =>
      intro h l
      rw [List.cons_append, tryLoop]
      by_cases hc : defaultOrder.contains m = true
      · rw [if_pos hc, h m (List.mem_cons_self m rest)]
        exact ih (fun x hx => h x (List.mem_cons_of_mem m hx)) l
      · rw [if_neg hc]
        exact ih (fun x hx => h x (List.mem_cons_of_mem m hx)) l

theorem tryLoop_success (calls : String → Option (String × Nat)) (n t : String) (tok : Nat)
    (rest : List String) (hn : defaultOrder.contains n = true) (hc : calls n = some (t, tok)) :
    tryLoop calls (n :: rest) = some ⟨t, n, modelOf n, tok, false⟩ := by
  rw [tryLoop, if_pos hn, hc]

/-- Every result the candidate loop can produce carries one of the seven fixed
adapter model strings, never the synthetic `"auto"` / `"baseline"` pair of
`_pick_provider_for_codegen`. -/
theorem tryLoop_model_real (calls : String → Option (String × Nat)) :
    ∀ (l : List String) (r : GenResult),
      tryLoop calls l = some r → r.model ≠ "auto" ∧ r.model ≠ "baseline" := by
  intro l
  induction l with
  | nil => intro r h; cases h
  | cons n rest ih =>
      intro r h
      rw [tryLoop] at h
      by_cases hc : defaultOrder.contains n = true
      · rw [if_pos hc] at h
        cases hcall : calls n with
        | none => rw [hcall] at h; exact ih r h
        | some p =>
            rw [hcall] at h
            obtain ⟨t, tok⟩ := p
            cases h
            have hmem : n ∈ defaultOrder := by
              simpa [List.contains, List.elem_eq_mem] using hc
            fin_cases hmem <;> simp [modelOf]
      · rw [if_neg hc] at h
        exact ih r h

theorem addDefaults_allfalse (avail : String → Bool) (hA : ∀ n, avail n = false) :
    ∀ (l acc : List String), addDefaults avail acc l = acc := by
  intro l
  induction l with
  | nil => intro acc; rfl
  | cons n rest ih =>
      intro acc
      rw [addDefaults, if_neg (by simp [hA n])]
      exact ih acc

theorem strategies_allfalse (avail : String → Bool) (preference : Option (List String))
    (hA : ∀ n, avail n = false) : strategies avail preference = [] := by
  unfold strategies
  rw [addDefaults_allfalse avail hA]
  cases preference with
  | none => rfl
  | some P => simp [prefPart, hA]

theorem generate_text_baseline (avail : String → Bool) (calls : String → Option (String × Nat))
    (prompt : String) (preference : Option (List String))
    (ht : tryLoop calls (strategies avail preference) = none) :
    generate_text avail calls prompt preference =
      ⟨"[baseline] You asked: " ++ prompt, (pickProviderForCodegen avail).1,
        (pickProviderForCodegen avail).2, ("[baseline] You asked: " ++ prompt).length / 4, true⟩ := by
  unfold generate_text
  rw [ht]

/-- C2: whenever every candidate's adapter call fails (which subsumes the case
of zero available providers, where the candidate list is empty), `generate_text`
returns — it cannot raise, every adapter exception being caught — a result
whose output is the prompt prefixed by the fixed `"[baseline] You asked: "`
marker, whose `fallback` flag is true, and whose model is the synthetic
`"auto"` / `"baseline"` value that no successful candidate-loop result ever
carries; moreover with zero available providers the candidate list is empty,
so the hypothesis always holds there. -/
theorem c2_offline_baseline (avail : String → Bool) (calls : String → Option (String × Nat))
    (prompt : String) (preference : Option (List String))
    (hfail : ∀ n ∈ strategies avail preference, calls n = none) :
    (generate_text avail calls prompt preference).output = "[baseline] You asked: " ++ prompt
    ∧ (generate_text avail calls prompt preference).fallback = true
    ∧ ((generate_text avail calls prompt preference).model = "auto"
        ∨ (generate_text avail calls prompt preference).model = "baseline")
    ∧ (∀ (calls2 : String → Option (String × Nat)) (l : List String) (r : GenResult),
        tryLoop calls2 l = some r → r.model ≠ "auto" ∧ r.model ≠ "baseline")
    ∧ ((∀ n, avail n = false) → strategies avail preference = []) := by
  have ht : tryLoop calls (strategies avail preference) = none :=
    tryLoop_none calls _ hfail
  rw [generate_text_baseline avail calls prompt preference ht]
  refine ⟨rfl, rfl, ?_, tryLoop_model_real, fun hA => strategies_allfalse avail preference hA⟩
  unfold pickProviderForCodegen
  cases codegenOrder.find? (fun n => avail n) <;> simp

/-- Witness for `c2_offline_baseline`: no provider available, every call
failing, prompt `"ping"`. -/
theorem c2_offline_baseline_witness :
    (generate_text (fun _ => false) (fun _ => none) "ping" none).output
        = "[baseline] You asked: " ++ "ping"
    ∧ (generate_text (fun _ => false) (fun _ => none) "ping" none).fallback = true :=
  ⟨(c2_offline_baseline (fun _ => false) (fun _ => none) "ping" none (fun _ _ => rfl)).1,
   (c2_offline_baseline (fun _ => false) (fun _ => none) "ping" none (fun _ _ => rfl)).2.1⟩

/-- C3: the candidate loop is strictly ordered — if all candidates before `n`
have failing adapter calls and `n`'s call succeeds, the returned result is
exactly `n`'s, with `provider = n`, its fixed model string and
`fallback = false`, independent of every later candidate; and in the concrete
scenario with availability `{gemini: false, mistral: true, openai: true}` and
no preference, the candidate order is `[mistral, openai]`, and with mistral's
call raising, openai's result is returned with `provider = "openai"`. -/
theorem c3_first_success :
    (∀ (avail : String → Bool) (calls : String → Option (String × Nat))
        (prompt : String) (preference : Option (List String))
        (s₁ s₂ : List String) (n t : String) (tok : Nat),
        strategies avail preference = s₁ ++ n :: s₂ →
        (∀ m ∈ s₁, calls m = none) →
        defaultOrder.contains n = true →
        calls n = some (t, tok) →
        generate_text avail calls prompt preference = ⟨t, n, modelOf n, tok, false⟩)
    ∧ strategies availC3 none = ["mistral", "openai"]
    ∧ generate_text availC3 callsC3 "p" none = ⟨"ok", "openai", "gpt-4o-mini", 7, false⟩ := by
  refine ⟨?_, by decide, by decide⟩
  intro avail calls prompt preference s₁ s₂ n t tok hstr hskip hn hc
  unfold generate_text
  rw [hstr, tryLoop_skip calls s₁ hskip (n :: s₂), tryLoop_success calls n t tok s₂ hn hc]

/-- Witness for `c3_first_success`: its generic first conjunct applied to the
concrete scenario. -/
theorem c3_first_success_witness :
    generate_text availC3 callsC3 "p" none = ⟨"ok", "openai", "gpt-4o-mini", 7, false⟩ :=
  c3_first_success.1 availC3 callsC3 "p" none ["mistral"] [] "openai" "ok" 7
    (by decide) (by decide) (by decide) (by decide)

theorem runRetryGo_spec (outcome : ℕ → Option α) :
    ∀ (rem i : ℕ),
      i ≤ (runRetryGo outcome rem i).2
      ∧ (runRetryGo outcome rem i).2 ≤ i + rem
      ∧ ((runRetryGo outcome rem i).1 = none →
          (runRetryGo outcome rem i).2 = i + rem
          ∧ ∀ j, i ≤ j → j ≤ i + rem → outcome j = none) := by
  intro rem
  induction rem with
  | zero =>
      intro i
      cases ho : outcome i with
      | some a =>
          have he : runRetryGo outcome 0 i = (some a, i) := by rw [runRetryGo, ho]
          rw [he]
          exact ⟨le_refl i, by omega, fun h => by cases h⟩
      | none =>
          have he : runRetryGo outcome 0 i = (none, i) := by rw [runRetryGo, ho]
          rw [he]
          refine ⟨le_refl i, by omega, fun _ => ⟨by omega, fun j hj1 hj2 => ?_⟩⟩
          have hj : j = i := by omega
          rw [hj, ho]
  | succ r ih =>
      intro i
      cases ho : outcome i with
      | some a =>
          have he : runRetryGo outcome (r + 1) i = (some a, i) := by rw [runRetryGo, ho]
          rw [he]
          exact ⟨le_refl i, by omega, fun h => by cases h⟩
      | none =>
          have he : runRetryGo outcome (r + 1) i = runRetryGo outcome r (i + 1) := by
            rw [runRetryGo, ho]
          rw [he]
          obtain ⟨h1, h2, h3⟩ := ih (i + 1)
          refine ⟨by omega, by omega, fun hn => ?_⟩
          obtain ⟨h4, h5⟩ := h3 hn
          refine ⟨by omega, fun j hj1 hj2 => ?_⟩
          by_cases hje : j = i
          · rw [hje, ho]
          · exact h5 j (by omega) (by omega)

/-- C6: every external provider adapter method is wrapped in the one uniform
retry policy (3 attempts, exponential backoff with multiplier 0.5s, clamped to
[0.5s, 4s]); under that policy the retry loop makes at most 3 attempts, a
failure that propagates means exactly 3 attempts were made, all of which
failed, and the backoff delays start at 0.5s, are non-decreasing across
successive attempts and never exceed the 4s cap. -/
theorem c6_retry_policy :
    (∀ x ∈ adapterPolicies, x.2 = uniformPolicy)
    ∧ (∀ outcome : ℕ → Option (String × Nat),
        1 ≤ (runRetry uniformPolicy outcome).2
        ∧ (runRetry uniformPolicy outcome).2 ≤ 3
        ∧ ((runRetry uniformPolicy outcome).1 = none →
            (runRetry uniformPolicy outcome).2 = 3
            ∧ ∀ j, 1 ≤ j → j ≤ 3 → outcome j = none))
    ∧ waitAfter uniformPolicy 1 = 1 / 2
    ∧ (∀ i j : ℕ, i ≤ j → waitAfter uniformPolicy i ≤ waitAfter uniformPolicy j)
    ∧ (∀ i : ℕ, 1 / 2 ≤ waitAfter uniformPolicy i ∧ waitAfter uniformPolicy i ≤ 4) := by
  refine ⟨by intro x hx; fin_cases hx <;> rfl, fun outcome => ?_, ?_, ?_, ?_⟩
  · have h := runRetryGo_spec outcome 2 1
    exact ⟨h.1, h.2.1, fun hn => ((h.2.2) hn).imp id (fun hf j h1 h3 => hf j h1 h3)⟩
  · norm_num [waitAfter, uniformPolicy]
  · intro i j hij
    unfold waitAfter
    apply max_le_max le_rfl
    apply min_le_min le_rfl
    have h2 : (2 : ℚ) ^ (i - 1) ≤ 2 ^ (j - 1) := by
      apply pow_le_pow_right₀ (by norm_num) (Nat.sub_le_sub_right hij 1)
    have hm : (0 : ℚ) ≤ uniformPolicy.multiplier := by norm_num [uniformPolicy]
    exact mul_le_mul_of_nonneg_left h2 hm
  · intro i
    constructor
    · exact le_max_of_le_left (by norm_num [uniformPolicy])
    · exact max_le (by norm_num [uniformPolicy])
        (le_trans (min_le_left _ _) (by norm_num [uniformPolicy]))

/-- Witness for `c6_retry_policy`: with every attempt failing, the loop stops
after exactly attempt 3. -/
theorem c6_retry_policy_witness :
    (runRetry uniformPolicy (fun _ => (none : Option (String × Nat)))).2 = 3 :=
  (((c6_retry_policy.2.1 (fun _ => none)).2.2) rfl).1

theorem envTruthy_iff (env : String → Option String) (var : String) :
    envTruthy env var = true ↔ secretPresent env var := by
  unfold envTruthy secretPresent
  cases h : env var <;> simp

/-- C7: provider detection marks each credential-gated provider available iff
its named secret (for `hf` and `v0`, either of their two accepted variable
names) is present non-empty in the environment; marks `ollama` available iff
the `OLLAMA_BASE_URL` override is set or the liveness probe returned ok; marks
the no-credential scaffolding tools `lovable` and `stitch` unconditionally
available; and a probe that raises (`probe = none`) is swallowed, leaving
`ollama` governed by the override alone — detection is a total function and
never raises. -/
theorem c7_detect (env : String → Option String) (probe : Option Bool) :
    (detect env probe "openai" = true ↔ secretPresent env "OPENAI_API_KEY")
    ∧ (detect env probe "gemini" = true ↔ secretPresent env "GEMINI_API_KEY")
    ∧ (detect env probe "mistral" = true ↔ secretPresent env "MISTRAL_API_KEY")
    ∧ (detect env probe "groq" = true ↔ secretPresent env "GROQ_API_KEY")
    ∧ (detect env probe "hf" = true ↔
        (secretPresent env "HF_API_KEY" ∨ secretPresent env "HUGGINGFACE_API_KEY"))
    ∧ (detect env probe "perplexity" = true ↔ secretPresent env "PERPLEXITY_API_KEY")
    ∧ (detect env probe "v0" = true ↔
        (secretPresent env "V0_API_KEY" ∨ secretPresent env "V0_DEV_API_KEY"))
    ∧ (detect env probe "ollama" = true ↔
        (secretPresent env "OLLAMA_BASE_URL" ∨ probe = some true))
    ∧ detect env probe "lovable" = true
    ∧ detect env probe "stitch" = true
    ∧ detect env none "ollama" = envTruthy env "OLLAMA_BASE_URL" := by
  refine ⟨envTruthy_iff env _, envTruthy_iff env _, envTruthy_iff env _, envTruthy_iff env _,
    ?_, envTruthy_iff env _, ?_, ?_, rfl, rfl, ?_⟩
  · show (envTruthy env "HF_API_KEY" || envTruthy env "HUGGINGFACE_API_KEY") = true ↔ _
    rw [Bool.or_eq_true, envTruthy_iff, envTruthy_iff]
  · show (envTruthy env "V0_API_KEY" || envTruthy env "V0_DEV_API_KEY") = true ↔ _
    rw [Bool.or_eq_true, envTruthy_iff, envTruthy_iff]
  · show (envTruthy env "OLLAMA_BASE_URL" || (probe == some true)) = true ↔ _
    rw [Bool.or_eq_true, envTruthy_iff]
    cases probe with
    | none => simp
    | some b => cases b <;> simp
  · show (envTruthy env "OLLAMA_BASE_URL" || ((none : Option Bool) == some true))
        = envTruthy env "OLLAMA_BASE_URL"
    simp

/-- C8: whatever each phase body does, the pipeline logs one entry per phase in
source order and never aborts; a phase that raises is recorded as a failed
stage carrying its error message while the remaining phases still run; and in
the concrete scenario where only the backend phase raises, the final log
contains a successful `frontend` stage and a failed `backend` stage whose error
message is non-null. -/
theorem c8_phase_isolation (outcomes : Phase → Except String ℕ) :
    buildLogs outcomes = phaseOrder.map (runPhase outcomes)
    ∧ (buildLogs outcomes).length = 5
    ∧ (∀ p msg, outcomes p = .error msg →
        (⟨phaseStageName p, false, 0, some msg⟩ : LogEntry) ∈ buildLogs outcomes)
    ∧ (∀ p n, outcomes p = .ok n →
        (⟨phaseStageName p, true, n, none⟩ : LogEntry) ∈ buildLogs outcomes)
    ∧ (⟨"frontend", true, 1, none⟩ : LogEntry) ∈ buildLogs outcomesC8
    ∧ (⟨"backend", false, 0, some "boom"⟩ : LogEntry) ∈ buildLogs outcomesC8
    ∧ (some "boom" : Option String) ≠ none := by
  refine ⟨rfl, rfl, ?_, ?_, by decide, by decide, by decide⟩
  · intro p msg h
    cases p <;> simp [buildLogs, runPhase, h]
  · intro p n h
    cases p <;> simp [buildLogs, runPhase, h]

/-- Witness for `c8_phase_isolation` at the concrete scenario oracle. -/
theorem c8_phase_isolation_witness :
    (⟨"backend", false, 0, some "boom"⟩ : LogEntry) ∈ buildLogs outcomesC8 :=
  (c8_phase_isolation outcomesC8).2.2.1 Phase.backend "boom" rfl

/-- C9: whenever no vision provider is available (`hf` unavailable) or the
vision provider's call fails, `classify_image` returns — all adapter
exceptions being caught, it cannot raise — a result with `fallback = true`,
the fixed confidence `0.65`, and a label that is one of exactly the two fixed
strings `"cow"` / `"cat"`, chosen by comparing the mean channel value of the
32×32-downsampled image against the threshold 128. -/
theorem c9_classify_fallback (avail : String → Bool) (hfCall : Option (String × ℚ))
    (pixels : List (ℕ × ℕ × ℕ)) (h : avail "hf" = false ∨ hfCall = none) :
    (classify_image avail hfCall pixels).fallback = true
    ∧ (classify_image avail hfCall pixels).confidence = 65 / 100
    ∧ ((classify_image avail hfCall pixels).label = "cow"
        ∨ (classify_image avail hfCall pixels).label = "cat")
    ∧ ((classify_image avail hfCall pixels).label = "cow"
        ↔ (channelSum pixels : ℚ) / (32 * 32 * 3) < 128) := by
  have hb : (if avail "hf" then hfCall else none) = none := by
    rcases h with h | h
    · rw [h]; rfl
    · rw [h]; cases avail "hf" <;> rfl
  have hc : classify_image avail hfCall pixels =
      ⟨if (channelSum pixels : ℚ) / (32 * 32 * 3) < 128 then "cow" else "cat", 65 / 100,
        (pickProviderForVision avail).1, (pickProviderForVision avail).2, true⟩ := by
    unfold classify_image
    rw [hb]
  rw [hc]
  by_cases havg : (channelSum pixels : ℚ) / (32 * 32 * 3) < 128
  · rw [if_pos havg]
    exact ⟨rfl, rfl, Or.inl rfl, ⟨fun _ => havg, fun _ => rfl⟩⟩
  · rw [if_neg havg]
    exact ⟨rfl, rfl, Or.inr rfl,
      ⟨fun hlab => by simp at hlab, fun hlt => absurd hlt havg⟩⟩

/-- Witness for `c9_classify_fallback`: no provider available, an all-black
image classifies as `"cow"` with `fallback = true`. -/
theorem c9_classify_fallback_witness :
    (classify_image (fun _ => false) none [(0, 0, 0)]).fallback = true
    ∧ (classify_image (fun _ => false) none [(0, 0, 0)]).label = "cow" :=
  ⟨(c9_classify_fallback (fun _ => false) none [(0, 0, 0)] (Or.inl rfl)).1,
   (c9_classify_fallback (fun _ => false) none [(0, 0, 0)] (Or.inl rfl)).2.2.2.mpr
     (by norm_num [channelSum, List.foldl])⟩

theorem padDigits_mem (w : ℕ) :
    ∀ (n : ℕ) (c : Char), c ∈ padDigits w n → ∃ k, k < 10 ∧ c = digitChar k := by
  induction w with
  | zero => intro n c hc; cases hc
  | succ w ih =>
      intro n c hc
      rw [padDigits] at hc
      rcases List.mem_append.mp hc with h | h
      · exact ih _ c h
      · refine ⟨n % 10, Nat.mod_lt _ (by norm_num), ?_⟩
        rw [List.mem_singleton.mp h]
        unfold digitChar
        congr 1
        omega

theorem padDigits_length (w : ℕ) : ∀ n : ℕ, (padDigits w n).length = w := by
  induction w with
  | zero => intro n; rfl
  | succ w ih => intro n; rw [padDigits]; simp [ih]

theorem digitChar_safe (k : ℕ) (hk : k < 10) :
    digitChar k ≠ '/' ∧ digitChar k ≠ '\\' ∧ digitChar k ≠ '.' := by
  interval_cases k <;> exact ⟨by decide, by decide, by decide⟩

theorem tsChars_mem (y mo d hh mi s : ℕ) (c : Char) (hc : c ∈ tsChars y mo d hh mi s) :
    (∃ k, k < 10 ∧ c = digitChar k) ∨ c = '-' := by
  unfold tsChars at hc
  simp only [List.mem_append, List.mem_singleton] at hc
  rcases hc with ((((((h | h) | h) | h) | h) | h) | h)
  all_goals first
    | exact Or.inl (padDigits_mem _ _ c h)
    | exact Or.inr h

theorem slugOf_chars (isalnum : Char → Bool) (lower : Char → List Char) (title : List Char) :
    ∀ c ∈ slugOf isalnum lower title, isalnum c = true ∨ c = '-' ∨ c = '_' := by
  intro c hc
  unfold slugOf at hc
  rcases List.mem_map.mp hc with ⟨b, hb, hbc⟩
  have hb2 : b ∈ slugFilter isalnum (title.flatMap lower) := by
    unfold stripSpaces at hb
    have h1 := List.mem_reverse.mp hb
    have h2 := (List.dropWhile_sublist _).subset h1
    have h3 := List.mem_reverse.mp h2
    exact (List.dropWhile_sublist _).subset h3
  rcases List.mem_filter.mp hb2 with ⟨_, hpred⟩
  by_cases hsp : (b == ' ') = true
  · rw [if_pos hsp] at hbc
    exact Or.inr (Or.inl hbc.symm)
  · rw [if_neg hsp] at hbc
    subst hbc
    simp only [hsp, Bool.or_false, Bool.or_eq_true, beq_iff_eq] at hpred
    rcases hpred with (hp | hp) | hp
    · exact Or.inl hp
    · exact Or.inr (Or.inl hp)
    · exact Or.inr (Or.inr hp)

/-- C10: for every title string (whatever `str.lower` and `str.isalnum` do on
it, provided `isalnum` never accepts a path separator or a dot — true of
Python's `str.isalnum`, whose accepted categories are letters and numbers
only), the run directory name `f"{ts}-{slug[:40]}"` built by `_mk_run_dir`
contains no `/`, no `\` and no `.` — so `'..'` cannot occur and
`os.path.join(runs_dir, name)` is always a direct child of the runs
directory — its slug part is at most 40 characters, made only of kept
alphanumerics of the lowered title, `-` and `_` (spaces having been replaced
by `-`), and the whole name is at least 16 characters, hence never empty,
`"."` or `".."`. -/
theorem c10_run_dir_safety (isalnum : Char → Bool) (lower : Char → List Char)
    (title : List Char) (y mo d hh mi s : ℕ)
    (hsafe : ∀ c, isalnum c = true → c ≠ '/' ∧ c ≠ '\\' ∧ c ≠ '.') :
    (∀ c ∈ mkRunDirName isalnum lower y mo d hh mi s title, c ≠ '/' ∧ c ≠ '\\' ∧ c ≠ '.')
    ∧ 16 ≤ (mkRunDirName isalnum lower y mo d hh mi s title).length
    ∧ ((slugOf isalnum lower title).take 40).length ≤ 40
    ∧ (∀ c ∈ slugOf isalnum lower title, isalnum c = true ∨ c = '-' ∨ c = '_') := by
  refine ⟨?_, ?_, List.length_take_le 40 _, slugOf_chars isalnum lower title⟩
  · intro c hc
    unfold mkRunDirName at hc
    simp only [List.mem_append, List.mem_singleton] at hc
    rcases hc with (h | h) | h
    · rcases tsChars_mem y mo d hh mi s c h with ⟨k, hk, rfl⟩ | rfl
      · exact digitChar_safe k hk
      · exact ⟨by decide, by decide, by decide⟩
    · subst h
      exact ⟨by decide, by decide, by decide⟩
    · have hmem := List.mem_of_mem_take h
      rcases slugOf_chars isalnum lower title c hmem with ha | hd | hu
      · exact hsafe c ha
      · subst hd
        exact ⟨by decide, by decide, by decide⟩
      · subst hu
        exact ⟨by decide, by decide, by decide⟩
  · unfold mkRunDirName tsChars
    simp [padDigits_length]
    omega

theorem hexVal_hexDigit : ∀ k, k < 16 → hexVal (hexDigit k) = some k := by decide

theorem skipWs_not_ws (c : Char) (l : List Char) (h : isWsChar c = false) :
    skipWs (c :: l) = c :: l := by
  rw [skipWs, if_neg (by simp [h])]

theorem skipWs_space (l : List Char) : skipWs (' ' :: l) = skipWs l := by
  rw [skipWs, if_pos (by decide)]

theorem parseSB_close (rest : List Char) : parseStringBody ('"' :: rest) = some ([], rest) := by
  conv_lhs => rw [parseStringBody.eq_def]
  rfl

theorem parseSB_quote (cs : List Char) :
    parseStringBody ('\\' :: '"' :: cs)
      = (fun p => ('"' :: p.1, p.2)) <$> parseStringBody cs := by
  conv_lhs => rw [parseStringBody.eq_def]
  rfl

theorem parseSB_backslash (cs : List Char) :
    parseStringBody ('\\' :: '\\' :: cs)
      = (fun p => ('\\' :: p.1, p.2)) <$> parseStringBody cs := by
  conv_lhs => rw [parseStringBody.eq_def]
  rfl

theorem parseSB_b (cs : List Char) :
    parseStringBody ('\\' :: 'b' :: cs)
      = (fun p => (Char.ofNat 8 :: p.1, p.2)) <$> parseStringBody cs := by
  conv_lhs => rw [parseStringBody.eq_def]
  rfl

theorem parseSB_f (cs : List Char) :
    parseStringBody ('\\' :: 'f' :: cs)
      = (fun p => (Char.ofNat 12 :: p.1, p.2)) <$> parseStringBody cs := by
  conv_lhs => rw [parseStringBody.eq_def]
  rfl

theorem parseSB_n (cs : List Char) :
    parseStringBody ('\\' :: 'n' :: cs)
      = (fun p => ('\n' :: p.1, p.2)) <$> parseStringBody cs := by
  conv_lhs => rw [parseStringBody.eq_def]
  rfl

theorem parseSB_r (cs : List Char) :
    parseStringBody ('\\' :: 'r' :: cs)
      = (fun p => ('\r' :: p.1, p.2)) <$> parseStringBody cs := by
  conv_lhs => rw [parseStringBody.eq_def]
  rfl

theorem parseSB_t (cs : List Char) :
    parseStringBody ('\\' :: 't' :: cs)
      = (fun p => ('\t' :: p.1, p.2)) <$> parseStringBody cs := by
  conv_lhs => rw [parseStringBody.eq_def]
  rfl

theorem parseSB_u (h1 h2 h3 h4 : Char) (cs : List Char) (v1 v2 v3 v4 : ℕ)
    (e1 : hexVal h1 = some v1) (e2 : hexVal h2 = some v2)
    (e3 : hexVal h3 = some v3) (e4 : hexVal h4 = some v4)
    (hv : v1 * 4096 + v2 * 256 + v3 * 16 + v4 < 55296) :
    parseStringBody ('\\' :: 'u' :: h1 :: h2 :: h3 :: h4 :: cs)
      = (fun p => (Char.ofNat (v1 * 4096 + v2 * 256 + v3 * 16 + v4) :: p.1, p.2)) <$>
          parseStringBody cs := by
  conv_lhs => rw [parseStringBody.eq_def]
  show (match hexVal h1, hexVal h2, hexVal h3, hexVal h4 with
    | some w1, some w2, some w3, some w4 =>
        if w1 * 4096 + w2 * 256 + w3 * 16 + w4 < 55296 then
          (fun p : List Char × List Char =>
            (Char.ofNat (w1 * 4096 + w2 * 256 + w3 * 16 + w4) :: p.1, p.2)) <$>
              parseStringBody cs
        else none
    | _, _, _, _ => none) = _
  rw [e1, e2, e3, e4]
  simp only [if_pos hv]

theorem parseSB_raw (c : Char) (cs : List Char)
    (hq : ¬ c = '"') (hb : ¬ c = '\\') (hc : ¬ c.toNat < 32) :
    parseStringBody (c :: cs) = (fun p => (c :: p.1, p.2)) <$> parseStringBody cs := by
  conv_lhs => rw [parseStringBody.eq_def]
  simp only [beq_iff_eq, if_neg hq, if_neg hb, if_neg hc]

/-- The decoder reverses the encoder on string bodies: parsing the escaped
rendering of `s` followed by the closing quote yields `s` and the rest. -/
theorem parseStringBody_dumps (s : List Char) :
    ∀ rest : List Char,
      parseStringBody (s.flatMap escapeChar ++ '"' :: rest) = some (s, rest) := by
  induction s with
  | nil =>
      intro rest
      rw [List.flatMap_nil, List.nil_append, parseSB_close]
  | cons c cs ih =>
      intro rest
      rw [List.flatMap_cons, List.append_assoc]
      by_cases h1 : c = '"'
      · subst h1
        simp only [show escapeChar '"' = ['\\', '"'] from rfl, List.cons_append,
          List.nil_append]
        rw [parseSB_quote, ih rest]
        rfl
      by_cases h2 : c = '\\'
      · subst h2
        simp only [show escapeChar '\\' = ['\\', '\\'] from rfl, List.cons_append,
          List.nil_append]
        rw [parseSB_backslash, ih rest]
        rfl
      by_cases h3 : c = '\n'
      · subst h3
        simp only [show escapeChar '\n' = ['\\', 'n'] from rfl, List.cons_append,
          List.nil_append]
        rw [parseSB_n, ih rest]
        rfl
      by_cases h4 : c = '\r'
      · subst h4
        simp only [show escapeChar '\r' = ['\\', 'r'] from rfl, List.cons_append,
          List.nil_append]
        rw [parseSB_r, ih rest]
        rfl
      by_cases h5 : c = '\t'
      · subst h5
        simp only [show escapeChar '\t' = ['\\', 't'] from rfl, List.cons_append,
          List.nil_append]
        rw [parseSB_t, ih rest]
        rfl
      by_cases h6 : c.toNat = 8
      · have hec : escapeChar c = ['\\', 'b'] := by
          unfold escapeChar
          simp only [beq_iff_eq, if_neg h1, if_neg h2, if_neg h3, if_neg h4, if_neg h5]
          rw [if_pos (by simp [h6])]
        have hcc : Char.ofNat 8 = c := by rw [← h6]; exact Char.ofNat_toNat c
        rw [hec]
        simp only [List.cons_append, List.nil_append]
        rw [parseSB_b, ih rest, hcc]
        rfl
      by_cases h7 : c.toNat = 12
      · have hec : escapeChar c = ['\\', 'f'] := by
          unfold escapeChar
          simp only [beq_iff_eq, if_neg h1, if_neg h2, if_neg h3, if_neg h4, if_neg h5]
          rw [if_neg (by simp [h6]), if_pos (by simp [h7])]
        have hcc : Char.ofNat 12 = c := by rw [← h7]; exact Char.ofNat_toNat c
        rw [hec]
        simp only [List.cons_append, List.nil_append]
        rw [parseSB_f, ih rest, hcc]
        rfl
      by_cases h8 : c.toNat < 32
      · have hec : escapeChar c
            = ['\\', 'u', '0', '0', hexDigit (c.toNat / 16), hexDigit (c.toNat % 16)] := by
          unfold escapeChar
          simp only [beq_iff_eq, if_neg h1, if_neg h2, if_neg h3, if_neg h4, if_neg h5]
          rw [if_neg (by simp [h6]), if_neg (by simp [h7]), if_pos h8]
        rw [hec]
        simp only [List.cons_append, List.nil_append]
        rw [parseSB_u '0' '0' (hexDigit (c.toNat / 16)) (hexDigit (c.toNat % 16)) _ 0 0
          (c.toNat / 16) (c.toNat % 16) rfl rfl
          (hexVal_hexDigit _ (by omega)) (hexVal_hexDigit _ (Nat.mod_lt _ (by norm_num)))
          (by omega)]
        rw [ih rest]
        have hval : 0 * 4096 + 0 * 256 + c.toNat / 16 * 16 + c.toNat % 16 = c.toNat := by
          omega
        rw [hval, Char.ofNat_toNat]
        rfl
      · have hec : escapeChar c = [c] := by
          unfold escapeChar
          simp only [beq_iff_eq, if_neg h1, if_neg h2, if_neg h3, if_neg h4, if_neg h5]
          rw [if_neg (by simp [h6]), if_neg (by simp [h7]), if_neg h8]
        rw [hec]
        simp only [List.cons_append, List.nil_append]
        rw [parseSB_raw c _ h1 h2 h8, ih rest]
        rfl

theorem parseValue_quote (fuel : ℕ) (r : List Char) :
    parseValue (fuel + 1) ('"' :: r)
      = (fun p => (Json.str (String.mk p.1), p.2)) <$> parseStringBody r := by
  conv_lhs => rw [parseValue.eq_def]
  rfl

theorem parseValue_string2 (fuel : ℕ) (s : String) (rest : List Char) :
    parseValue (fuel + 1) ('"' :: (s.toList.flatMap escapeChar ++ '"' :: rest))
      = some (Json.str s, rest) := by
  rw [parseValue_quote, parseStringBody_dumps s.toList rest]
  rfl

theorem dictInsert_fresh (acc : List (String × Json)) (k : String) (v : Json)
    (h : acc.any (fun kv => kv.1 == k) = false) :
    dictInsert acc k v = acc ++ [(k, v)] := by
  unfold dictInsert
  rw [h]
  rfl

theorem parseMembers_step (fuel : ℕ) (acc : List (String × Json)) (r kl r1 : List Char)
    (h : parseStringBody r = some (kl, r1)) :
    parseMembers (fuel + 1) acc ('"' :: r) =
      (match skipWs r1 with
       | ':' :: r2 =>
           (match parseValue fuel (skipWs r2) with
            | none => none
            | some (v, r3) =>
                (match skipWs r3 with
                 | ',' :: r4 => parseMembers fuel (dictInsert acc (String.mk kl) v) (skipWs r4)
                 | c4 :: r4 =>
                     if c4 == rbrace then some (Json.obj (dictInsert acc (String.mk kl) v), r4)
                     else none
                 | [] => none))
       | _ => none) := by
  conv_lhs => rw [parseMembers.eq_def]
  show (match parseStringBody r with
    | none => none
    | some (k, r1) =>
        match skipWs r1 with
        | ':' :: r2 =>
            match parseValue fuel (skipWs r2) with
            | none => none
            | some (v, r3) =>
                match skipWs r3 with
                | ',' :: r4 => parseMembers fuel (dictInsert acc (String.mk k) v) (skipWs r4)
                | c4 :: r4 =>
                    if c4 == rbrace then some (Json.obj (dictInsert acc (String.mk k) v), r4)
                    else none
                | [] => none
        | _ => none) = _
  rw [h]

theorem parseMembers_strstep (f : ℕ) (acc : List (String × Json)) (k v : String)
    (tail : List Char) :
    parseMembers (f + 1 + 1) acc
        ('"' :: (k.toList.flatMap escapeChar
          ++ '"' :: (':' :: ' ' :: '"' :: (v.toList.flatMap escapeChar ++ '"' :: tail))))
      = (match skipWs tail with
         | ',' :: r4 => parseMembers (f + 1) (dictInsert acc k (Json.str v)) (skipWs r4)
         | c4 :: r4 =>
             if c4 == rbrace then some (Json.obj (dictInsert acc k (Json.str v)), r4)
             else none
         | [] => none) := by
  rw [parseMembers_step (f + 1) acc _ k.toList
    (':' :: ' ' :: '"' :: (v.toList.flatMap escapeChar ++ '"' :: tail))
    (parseStringBody_dumps k.toList _)]
  rw [skipWs_not_ws ':' _ (by decide)]
  show (match parseValue (f + 1)
        (skipWs (' ' :: '"' :: (v.toList.flatMap escapeChar ++ '"' :: tail))) with
    | none => none
    | some (v2, r3) =>
        match skipWs r3 with
        | ',' :: r4 => parseMembers (f + 1) (dictInsert acc (String.mk k.toList) v2) (skipWs r4)
        | c4 :: r4 =>
            if c4 == rbrace then
              some (Json.obj (dictInsert acc (String.mk k.toList) v2), r4)
            else none
        | [] => none) = _
  rw [skipWs_space, skipWs_not_ws '"' _ (by decide), parseValue_string2 f v tail]
  show (match skipWs tail with
      | ',' :: r4 =>
          parseMembers (f + 1) (dictInsert acc (String.mk k.toList) (Json.str v)) (skipWs r4)
      | c4 :: r4 =>
          if c4 == rbrace then
            some (Json.obj (dictInsert acc (String.mk k.toList) (Json.str v)), r4)
          else none
      | [] => none) = _
  rw [show String.mk k.toList = k from rfl]

theorem skipWs_dumpsPairs (k : String) (v : String) (M : List (String × String)) (X : List Char) :
    skipWs (dumpsPairs ((k, v) :: M) ++ X) = dumpsPairs ((k, v) :: M) ++ X := by
  cases M <;>
    simp only [dumpsPairs, dumpsString, List.cons_append, List.append_assoc] <;>
    exact skipWs_not_ws _ _ (by decide)

/-- The members parser reverses the members serializer: parsing the dumped
pairs of a duplicate-free, `acc`-fresh dict up to the closing brace extends
`acc` by exactly those pairs as string values. -/
theorem parseMembers_dumps :
    ∀ (M : List (String × String)) (k v : String) (fuel : ℕ)
      (acc : List (String × Json)) (rest : List Char),
      2 * M.length + 2 ≤ fuel →
      (∀ k2, k2 ∈ ((k, v) :: M).map Prod.fst → acc.any (fun kv => kv.1 == k2) = false) →
      (((k, v) :: M).map Prod.fst).Nodup →
      parseMembers fuel acc (dumpsPairs ((k, v) :: M) ++ rbrace :: rest)
        = some (Json.obj (acc ++ ((k, v) :: M).map (fun kv => (kv.1, Json.str kv.2))), rest) := by
  intro M
  induction M with
  | nil =>
      intro k v fuel acc rest hfuel hfresh hnd
      obtain ⟨f, rfl⟩ : ∃ f, fuel = f + 1 + 1 := ⟨fuel - 2, by omega⟩
      simp only [dumpsPairs, dumpsString, List.cons_append, List.append_assoc,
        List.nil_append, List.singleton_append]
      rw [parseMembers_strstep f acc k v (rbrace :: rest)]
      rw [skipWs_not_ws rbrace _ (by decide)]
      rw [dictInsert_fresh acc k (Json.str v) (hfresh k (by simp))]
      rfl
  | cons kv2 M2 ih =>
      intro k v fuel acc rest hfuel hfresh hnd
      obtain ⟨k2, v2⟩ := kv2
      obtain ⟨f, rfl⟩ : ∃ f, fuel = f + 1 + 1 := ⟨fuel - 2, by omega⟩
      simp only [dumpsPairs, dumpsString, List.cons_append, List.append_assoc,
        List.nil_append, List.singleton_append]
      rw [show ('"' :: (k.toList.flatMap escapeChar
            ++ '"' :: ':' :: ' ' :: '"' :: (v.toList.flatMap escapeChar
              ++ '"' :: ',' :: ' ' :: (dumpsPairs ((k2, v2) :: M2) ++ rbrace :: rest))))
          = ('"' :: (k.toList.flatMap escapeChar
            ++ '"' :: (':' :: ' ' :: '"' :: (v.toList.flatMap escapeChar
              ++ '"' :: (',' :: ' ' :: (dumpsPairs ((k2, v2) :: M2) ++ rbrace :: rest))))))
          from rfl]
      rw [parseMembers_strstep f acc k v
        (',' :: ' ' :: (dumpsPairs ((k2, v2) :: M2) ++ rbrace :: rest))]
      rw [skipWs_not_ws ',' _ (by decide)]
      show parseMembers (f + 1) (dictInsert acc k (Json.str v))
          (skipWs (' ' :: (dumpsPairs ((k2, v2) :: M2) ++ rbrace :: rest))) = _
      rw [skipWs_space, skipWs_dumpsPairs]
      rw [dictInsert_fresh acc k (Json.str v) (hfresh k (by simp))]
      have hnd2 : (((k2, v2) :: M2).map Prod.fst).Nodup := by
        simpa using hnd.of_cons
      have hfresh2 : ∀ k3, k3 ∈ ((k2, v2) :: M2).map Prod.fst →
          (acc ++ [(k, Json.str v)]).any (fun kv => kv.1 == k3) = false := by
        intro k3 h3
        rw [List.any_append]
        have h1 : acc.any (fun kv => kv.1 == k3) = false :=
          hfresh k3 (by simp at h3 ⊢; exact Or.inr h3)
        have hk3 : k ≠ k3 := by
          intro he
          have hknot : k ∉ ((k2, v2) :: M2).map Prod.fst := by
            have hx := hnd
            simp only [List.map_cons, List.nodup_cons] at hx
            exact fun hm => hx.1 (by simpa using hm)
          exact hknot (he ▸ h3)
        simp [h1, hk3]
      have hrec := ih k2 v2 (f + 1) (acc ++ [(k, Json.str v)]) rest
        (by simp at hfuel ⊢; omega) hfresh2 hnd2
      rw [hrec]
      simp [List.append_assoc]

theorem dumpsPairs_length : ∀ M : List (String × String), M.length ≤ (dumpsPairs M).length := by
  intro M
  induction M with
  | nil => simp [dumpsPairs]
  | cons kv M ih =>
      obtain ⟨k, v⟩ := kv
      cases M with
      | nil => simp [dumpsPairs, dumpsString]
      | cons kv2 M2 =>
          simp only [dumpsPairs, List.length_append, List.length_cons, dumpsString] at ih ⊢
          omega

theorem parseValue_obj (fuel : ℕ) (r : List Char) :
    parseValue (fuel + 1) (lbrace :: r) =
      (match skipWs r with
       | c2 :: r2 =>
           if c2 == rbrace then some (Json.obj [], r2) else parseMembers fuel [] (c2 :: r2)
       | [] => none) := by
  conv_lhs => rw [parseValue.eq_def]
  rfl

theorem dumpsPairs_cons_shape (k v : String) (M : List (String × String)) :
    ∃ t, dumpsPairs ((k, v) :: M) = '"' :: t := by
  cases M with
  | nil =>
      refine ⟨k.toList.flatMap escapeChar
        ++ '"' :: ':' :: ' ' :: '"' :: (v.toList.flatMap escapeChar ++ ['"']), ?_⟩
      simp [dumpsPairs, dumpsString, List.cons_append, List.append_assoc]
  | cons kv2 M2 =>
      refine ⟨k.toList.flatMap escapeChar
        ++ '"' :: ':' :: ' ' :: '"' :: (v.toList.flatMap escapeChar
          ++ '"' :: ',' :: ' ' :: dumpsPairs (kv2 :: M2)), ?_⟩
      simp [dumpsPairs, dumpsString, List.cons_append, List.append_assoc]

/-- The decoder reverses the encoder: `json.loads(json.dumps(M))` recovers the
string-to-string dict `M`. -/
theorem jsonLoads_dumps (M : List (String × String)) (hnd : (M.map Prod.fst).Nodup) :
    jsonLoads (dumps M) = some (strDictJson M) := by
  cases M with
  | nil => rfl
  | cons kv M2 =>
      obtain ⟨k, v⟩ := kv
      unfold jsonLoads dumps
      rw [show (String.mk (lbrace :: (dumpsPairs ((k, v) :: M2) ++ [rbrace]))).toList
            = lbrace :: (dumpsPairs ((k, v) :: M2) ++ [rbrace]) from rfl]
      rw [skipWs_not_ws lbrace _ (by decide)]
      rw [show 2 * (lbrace :: (dumpsPairs ((k, v) :: M2) ++ [rbrace])).length + 2
            = (2 * (lbrace :: (dumpsPairs ((k, v) :: M2) ++ [rbrace])).length + 1) + 1 from rfl]
      rw [parseValue_obj]
      rw [show ((dumpsPairs ((k, v) :: M2) ++ [rbrace]) : List Char)
            = dumpsPairs ((k, v) :: M2) ++ rbrace :: ([] : List Char) from rfl]
      rw [skipWs_dumpsPairs k v M2 (rbrace :: [])]
      obtain ⟨t, ht⟩ := dumpsPairs_cons_shape k v M2
      rw [ht]
      rw [show (('"' :: t) ++ rbrace :: ([] : List Char)) = '"' :: (t ++ rbrace :: []) from rfl]
      show (match (if ('"' == rbrace) = true then some (Json.obj [], t ++ [rbrace])
          else parseMembers (2 * (lbrace :: '"' :: (t ++ [rbrace])).length + 1) []
            ('"' :: (t ++ [rbrace]))) with
        | some (v, rest) => if skipWs rest = [] then some v else none
        | none => none) = some (strDictJson ((k, v) :: M2))
      rw [if_neg (by decide)]
      have hlen := dumpsPairs_length ((k, v) :: M2)
      rw [ht] at hlen
      simp only [List.length_cons] at hlen
      rw [show ('"' :: (t ++ [rbrace]) : List Char) = ('"' :: t) ++ rbrace :: [] from rfl, ← ht]
      rw [parseMembers_dumps M2 k v _ [] []
        (by simp only [List.length_cons, List.length_append, ht]; omega)
        (fun k2 _ => rfl) hnd]
      simp [strDictJson, skipWs]

theorem parseFilesJson_dumps (M : List (String × String)) (hnd : (M.map Prod.fst).Nodup) :
    parseFilesJson (dumps M) = some M := by
  unfold parseFilesJson
  rw [jsonLoads_dumps M hnd]
  show some ((M.map (fun kv => (kv.1, Json.str kv.2))).map (fun kv => (kv.1, pyStr kv.2)))
      = some M
  rw [List.map_map]
  congr 1
  have hcomp : ((fun kv : String × Json => (kv.1, pyStr kv.2))
      ∘ fun kv : String × String => (kv.1, Json.str kv.2)) = fun kv => (kv.1, kv.2) := by
    funext kv
    rfl
  rw [hcomp]
  simp

theorem extractFiles_dumps (M : List (String × String)) (hnd : (M.map Prod.fst).Nodup) :
    extractFiles (dumps M) = .ok (strDictJson M) := by
  unfold extractFiles
  rw [parseFilesJson_dumps M hnd]
  rfl

/-- C4: the extractor round-trips JSON string-to-string mappings: extracting
the JSON serialization of any mapping `M` (duplicate-free keys, as a Python
dict has by construction) yields exactly `M`; extracting prose that contains a
fenced triple-backtick `json` block whose interior is a JSON object yields
that object's mapping; and extracting text that is not JSON and has no fenced
block yields the empty mapping. -/
theorem c4_extractor_roundtrip :
    (∀ M : List (String × String), (M.map Prod.fst).Nodup →
        extractFiles (dumps M) = .ok (strDictJson M))
    ∧ extractFiles "prose with \x60\x60\x60json\n\x7b\"a\":\"b\"\x7d\n\x60\x60\x60 more text"
        = .ok (strDictJson [("a", "b")])
    ∧ extractFiles "not json at all" = .ok (Json.obj []) :=
  ⟨extractFiles_dumps, rfl, rfl⟩

/-- Witness for `c4_extractor_roundtrip` at a concrete one-file mapping. -/
theorem c4_extractor_roundtrip_witness :
    extractFiles (dumps [("src/main.py", "print(1)")])
      = .ok (strDictJson [("src/main.py", "print(1)")]) :=
  c4_extractor_roundtrip.1 [("src/main.py", "print(1)")] (by decide)

/-- C5 (amended): if attempt 1 (whole-text JSON parse coercible to a
string-to-string dict) fails and no fenced block is found in the text, the
extractor returns the empty mapping rather than raising; when a fenced block
is present, its interior is parsed and an invalid interior makes that second
parse raise out of the extractor. -/
theorem c5_extractor_fallback (text : String)
    (h1 : parseFilesJson text = none) (h2 : findFence text.toList = none) :
    extractFiles text = .ok (Json.obj []) := by
  unfold extractFiles
  rw [h1, h2]

/-- Witness for `c5_extractor_fallback`: plain non-JSON text. -/
theorem c5_extractor_fallback_witness :
    extractFiles "hello world" = .ok (Json.obj []) :=
  c5_extractor_fallback "hello world" rfl rfl

/-- C5, counterexample to the claim as stated: a fenced block whose interior
is not valid JSON makes the extractor raise (`json.loads(m.group(1))` is
outside the `try`), instead of returning an empty mapping. -/
theorem c5_counterexample :
    extractFiles "\x60\x60\x60json\nnot valid\n\x60\x60\x60" = .error () := rfl

/-- Witness for `c10_run_dir_safety`: title `"My App!"`, identity lowering,
ASCII alphanumerics, timestamp 2026-10-12 08:00:00. -/
theorem c10_run_dir_safety_witness :
    ('/' ∉ mkRunDirName asciiAlnum (fun c => [c]) 2026 10 12 8 0 0 "My App!".toList)
    ∧ 16 ≤ (mkRunDirName asciiAlnum (fun c => [c]) 2026 10 12 8 0 0 "My App!".toList).length := by
  have h := c10_run_dir_safety asciiAlnum (fun c => [c]) "My App!".toList 2026 10 12 8 0 0
    (by intro c hc; refine ⟨?_, ?_, ?_⟩ <;> (rintro rfl; revert hc; decide))
  exact ⟨fun hm => (h.1 _ hm).1 rfl, h.2.1⟩

end SDLC

